import Mathlib

/-!
Shallow embedding of `scripts/validate_formatting.py`: a C++ formatting
validator.  File discovery walks fixed roots, and six independent checks
scan each discovered file, producing issue strings; the driver turns the
issue count into an exit code.  Python strings are modelled as `String`,
file reads as `Except String` values (the error carries the exception
text), and issues as the exact message strings the script builds.
-/

/-- Characters that Python str.strip and the regex class `\s` treat as whitespace (ASCII). -/
def isPyWs (c : Char) : Bool :=
  c = ' ' || c = '\t' || c = '\n' || c = '\r' || c = '\x0b' || c = '\x0c'

/-- Characters matched by the Python regex class `\w` (ASCII relevant subset). -/
def isWordChar (c : Char) : Bool :=
  c.isAlphanum || c = '_'

/-- Python `line.rstrip("\n\r")`: strip trailing line terminators only. -/
def rstripNL (s : String) : String :=
  String.mk ((s.data.reverse.dropWhile (fun c => c = '\n' || c = '\r')).reverse)

/-- Python `line.rstrip()`: strip all trailing whitespace. -/
def pyRstrip (s : String) : String :=
  String.mk ((s.data.reverse.dropWhile isPyWs).reverse)

/-- Python `line.lstrip()`: strip all leading whitespace. -/
def lstripWs (s : String) : String :=
  String.mk (s.data.dropWhile isPyWs)

/-- Python `line.lstrip(" ")`: strip leading space characters only. -/
def lstripSpaces (s : String) : String :=
  String.mk (s.data.dropWhile (fun c => c = ' '))

/-- Python `line.strip()`: strip whitespace from both ends. -/
def pyStrip (s : String) : String :=
  String.mk (((s.data.dropWhile isPyWs).reverse.dropWhile isPyWs).reverse)

/-- Number of leading space characters, `len(line) - len(line.lstrip(" "))`. -/
def leadingSpaces (s : String) : Nat :=
  s.length - (lstripSpaces s).length

/-- Match a literal character sequence at the head, returning the remainder. -/
def afterLit : List Char → List Char → Option (List Char)
  | [], s => some s
  | _ :: _, [] => none
  | p :: ps, c :: cs => if p = c then afterLit ps cs else none

/-- Does the pattern occur as a contiguous subsequence (Python `in`)? -/
def occursIn (pat : List Char) : List Char → Bool
  | [] => pat.isEmpty
  | c :: cs => (afterLit pat (c :: cs)).isSome || occursIn pat cs

/-- Lexicographic comparison of character lists by code point, as Python
compares strings. -/
def lexLe : List Char → List Char → Bool
  | [], _ => true
  | _ :: _, [] => false
  | a :: as, b :: bs =>
    if a.toNat < b.toNat then true
    else if b.toNat < a.toNat then false
    else lexLe as bs

/-- Python string `<=` (code-point lexicographic). -/
def strLe (a b : String) : Bool :=
  lexLe a.data b.data

/-- Insert a string into a `strLe`-sorted list (as `sorted` would place it). -/
def insSorted (a : String) : List String → List String
  | [] => [a]
  | b :: rest => if strLe a b then a :: b :: rest else b :: insSorted a rest

/-- Python `sorted` on a list of strings, as an insertion sort. -/
def sortStrings : List String → List String
  | [] => []
  | a :: rest => insSorted a (sortStrings rest)

/-- One entry returned by `Path(root).rglob("*")`: a path plus whether the
entry is a regular file (directories and other kinds also appear). -/
structure FSEntry where
  path : String
  isFile : Bool
deriving DecidableEq

/-- The file-system as the script observes it: which candidate roots exist,
and the full recursive listing (all entry kinds) beneath each root. -/
structure FileSystem where
  rootExists : String → Bool
  rglobAll : String → List FSEntry

/-- The four fixed root directories scanned by `find_cpp_files`. -/
def cppRoots : List String := ["src", "include", "examples", "tests"]

/-- The extension allow-list in `find_cpp_files`. -/
def cppExtensions : List String := [".cpp", ".hpp", ".h", ".cxx", ".cc"]

/-- Python `pathlib.Path(p).suffix`: the last dot-suffix of the final path
component; empty when the name has no dot, starts with its only dot, or
ends with a dot. -/
def pySuffix (p : String) : String :=
  let nmr := p.data.reverse.takeWhile (fun c => c ≠ '/')
  let tl := nmr.takeWhile (fun c => c ≠ '.')
  if tl.length = nmr.length then ""
  else if tl.length + 1 = nmr.length then ""
  else if tl.length = 0 then ""
  else String.mk ('.' :: tl.reverse)

/-- Discovery, `find_cpp_files`: walk each existing root, keep entries whose suffix is
in the allow-list, and return the collected paths sorted. -/
def find_cpp_files (fs : FileSystem) : List String :=
  sortStrings ((cppRoots.filter (fun r => fs.rootExists r)).flatMap
    (fun r => (fs.rglobAll r).filterMap
      (fun e => if pySuffix e.path ∈ cppExtensions then some e.path else none)))

/-- Issue text for a file that could not be read (`e` is the exception
text), as built by the except clause of every check. -/
def readErrMsg (p e : String) : String :=
  p ++ ": Error reading file - " ++ e

/-- Issue text of `check_line_length` for one overlong line. -/
def lineTooLongMsg (p : String) (n len maxLen : Nat) : String :=
  p ++ ":" ++ toString n ++ ": Line too long (" ++ toString len ++ " > "
    ++ toString maxLen ++ ")"

/-- Issue text of `check_trailing_whitespace` for one line. -/
def trailingWsMsg (p : String) (n : Nat) : String :=
  p ++ ":" ++ toString n ++ ": Trailing whitespace"

/-- Issue text of `check_tabs` for a file containing a tab. -/
def tabMsg (p : String) : String :=
  p ++ ": Contains tab characters"

/-- Issue text of `check_include_guards` for a guardless header. -/
def guardMsg (p : String) : String :=
  p ++ ": Missing or incomplete include guards"

/-- Issue text of `check_namespace_comments` for one closing brace. -/
def nsMsg (p : String) (n : Nat) : String :=
  p ++ ":" ++ toString n ++ ": Missing namespace closing comment"

/-- Issue text of `check_indentation` for one line. -/
def indentMsg (p : String) (n : Nat) : String :=
  p ++ ":" ++ toString n ++ ": Inconsistent indentation (not multiple of 4)"

/-- The per-line loop of `check_line_length`, carrying the 1-indexed line
number. -/
def lineLenLoop (p : String) (maxLen : Nat) : Nat → List String → List String
  | _, [] => []
  | n, l :: rest =>
    if maxLen < (rstripNL l).length then
      lineTooLongMsg p n (rstripNL l).length maxLen :: lineLenLoop p maxLen (n + 1) rest
    else lineLenLoop p maxLen (n + 1) rest

/-- Check `check_line_length`: one issue per line longer than `maxLen` after
stripping only line terminators; a read error yields one issue. -/
def check_line_length (p : String) (r : Except String (List String))
    (maxLen : Nat) : List String :=
  match r with
  | .error e => [readErrMsg p e]
  | .ok lines => lineLenLoop p maxLen 1 lines

/-- The per-line loop of `check_trailing_whitespace`. -/
def trailLoop (p : String) : Nat → List String → List String
  | _, [] => []
  | n, l :: rest =>
    if rstripNL l ≠ pyRstrip l then trailingWsMsg p n :: trailLoop p (n + 1) rest
    else trailLoop p (n + 1) rest

/-- Check `check_trailing_whitespace`: one issue per line whose terminator-stripped
text differs from its fully right-stripped text. -/
def check_trailing_whitespace (p : String)
    (r : Except String (List String)) : List String :=
  match r with
  | .error e => [readErrMsg p e]
  | .ok lines => trailLoop p 1 lines

/-- Check `check_tabs`: one issue for the whole file if its content contains a
tab character. -/
def check_tabs (p : String) (r : Except String String) : List String :=
  match r with
  | .error e => [readErrMsg p e]
  | .ok content => if content.data.contains '\t' then [tabMsg p] else []

/-- Python `s.endswith(suf)`. -/
def pyEndsWith (s suf : String) : Bool :=
  (afterLit suf.data.reverse s.data.reverse).isSome

/-- Is the path a header per `file_path.endswith((".hpp", ".h"))`? -/
def isHeaderPath (p : String) : Bool :=
  pyEndsWith p ".hpp" || pyEndsWith p ".h"

/-- Scan the rest of a whitespace run for a first word character. -/
def wordAfterWs : List Char → Bool
  | [] => false
  | c :: cs => if isWordChar c then true else if isPyWs c then wordAfterWs cs else false

/-- A successful match, starting at this position, of the literal followed by `\s+(\w+)`:
the literal, then at least one whitespace character, then a word character. -/
def litWsWordHere (lit : List Char) (s : List Char) : Bool :=
  match afterLit lit s with
  | none => false
  | some [] => false
  | some (c :: cs) => isPyWs c && wordAfterWs cs

/-- Existence, somewhere in `s`, of a match of the literal followed by the pattern `\s+(\w+)`. -/
def searchLitWsWord (lit : List Char) : List Char → Bool
  | [] => false
  | c :: cs => litWsWordHere lit (c :: cs) || searchLitWsWord lit cs

/-- Check `check_include_guards`: headers only; a file with `#pragma once`
passes; otherwise all three of `#ifndef NAME`, `#define NAME`, `#endif`
must be present somewhere, else one issue. -/
def check_include_guards (p : String) (r : Except String String) : List String :=
  if isHeaderPath p then
    match r with
    | .error e => [readErrMsg p e]
    | .ok content =>
      if occursIn "#pragma once".data content.data then []
      else
        if searchLitWsWord "#ifndef".data content.data
            && searchLitWsWord "#define".data content.data
            && occursIn "#endif".data content.data then []
        else [guardMsg p]
  else []

/-- Group 1 of the prefix match of `namespace\s+(\w+)`: the namespace
name when the stripped line opens a namespace, scanning past the
whitespace run after the keyword. -/
def nsNameAfterWs : List Char → Option String
  | [] => none
  | c :: cs =>
    if isWordChar c then some (String.mk (c :: cs.takeWhile isWordChar))
    else if isPyWs c then nsNameAfterWs cs
    else none

/-- The prefix match of the pattern `namespace\s+(\w+)` on the stripped line: the
keyword, at least one whitespace character, then the name. -/
def nsOpenName (s : String) : Option String :=
  match afterLit "namespace".data s.data with
  | none => none
  | some [] => none
  | some (c :: cs) => if isPyWs c then nsNameAfterWs cs else none

/-- A closing-brace line: stripped text equal to `}` or starting `} `. -/
def isCloseLine (s : String) : Bool :=
  s = "\x7d" || (afterLit "\x7d ".data s.data).isSome

/-- The literal before the name in the two-space closing-comment pattern. -/
def nsClose2Lit : String := "\x7d  // namespace "

/-- The literal before the name in the one-space closing-comment pattern. -/
def nsClose1Lit : String := "\x7d // namespace "

/-- A prefix match of `lit` followed by at least one word character
(a prefix regex match of the literal then `\w+`); anything may follow. -/
def litThenWord (lit : List Char) (s : List Char) : Bool :=
  match afterLit lit s with
  | none => false
  | some [] => false
  | some (c :: _) => isWordChar c

/-- The closing-comment test of `check_namespace_comments`: the stripped
closing line prefix-matches `}  // namespace \w+` or `} // namespace \w+`. -/
def acceptedClosing (s : String) : Bool :=
  litThenWord nsClose2Lit.data s.data || litThenWord nsClose1Lit.data s.data

/-- The per-line loop of `check_namespace_comments`: push opened
namespaces, pop on any closing brace, and flag uncommented closings on
lines past line 10. -/
def nsLoop (p : String) : List (String × Nat) → Nat → List String → List String
  | _, _, [] => []
  | stack, n, l :: rest =>
    let s := pyStrip l
    let stack2 :=
      match nsOpenName s with
      | some nm => (nm, n) :: stack
      | none => stack
    if isCloseLine s then
      match stack2 with
      | [] => nsLoop p [] (n + 1) rest
      | _ :: tl =>
        if acceptedClosing s then nsLoop p tl (n + 1) rest
        else if 10 < n then nsMsg p n :: nsLoop p tl (n + 1) rest
        else nsLoop p tl (n + 1) rest
    else nsLoop p stack2 (n + 1) rest

/-- Check `check_namespace_comments`: run the stack scan from line 1 with an
empty stack; a read error yields one issue. -/
def check_namespace_comments (p : String)
    (r : Except String (List String)) : List String :=
  match r with
  | .error e => [readErrMsg p e]
  | .ok lines => nsLoop p [] 1 lines

/-- The alignment-exemption test of `check_indentation`:
the regex `.*[^\w\s].*` finds no match in the left-stripped line, i.e. it holds no
character that is neither a word character nor whitespace. -/
def noPunctLine (l : String) : Bool :=
  (lstripWs l).data.all (fun c => isWordChar c || isPyWs c)

/-- The per-line loop of `check_indentation`: skip blank lines; on the
first line with a positive, non-multiple-of-4 leading-space count that
also passes the alignment test, emit one issue and stop. -/
def indentLoop (p : String) : Nat → List String → List String
  | _, [] => []
  | n, l :: rest =>
    if pyStrip l = "" then indentLoop p (n + 1) rest
    else if 0 < leadingSpaces l ∧ leadingSpaces l % 4 ≠ 0 then
      if noPunctLine l then [indentMsg p n]
      else indentLoop p (n + 1) rest
    else indentLoop p (n + 1) rest

/-- Check `check_indentation`: run the scan from line 1; a read error yields one
issue. -/
def check_indentation (p : String)
    (r : Except String (List String)) : List String :=
  match r with
  | .error e => [readErrMsg p e]
  | .ok lines => indentLoop p 1 lines

/-- The six checks, in the order `main` runs them. -/
inductive CheckId where
  | lineLength
  | trailingWs
  | tabs
  | includeGuards
  | nsComments
  | indentation
deriving DecidableEq

/-- The fixed check order of `main`. -/
def checkOrder : List CheckId :=
  [.lineLength, .trailingWs, .tabs, .includeGuards, .nsComments, .indentation]

/-- A discovered file as the checks observe it: its path, what reading it
line-wise yields, and what reading its whole content yields (each check
opens the file independently). -/
structure FileData where
  path : String
  readLines : Except String (List String)
  readContent : Except String String

/-- Dispatch one check on one file, as the loop in `main` does
(`check_line_length` is called with the explicit 100 limit). -/
def applyCheck : CheckId → FileData → List String
  | .lineLength, f => check_line_length f.path f.readLines 100
  | .trailingWs, f => check_trailing_whitespace f.path f.readLines
  | .tabs, f => check_tabs f.path f.readContent
  | .includeGuards, f => check_include_guards f.path f.readContent
  | .nsComments, f => check_namespace_comments f.path f.readLines
  | .indentation, f => check_indentation f.path f.readLines

/-- The check/file double loop of `main`: every check over every file,
checks outermost, all issues concatenated in order. -/
def runChecks (files : List FileData) : List String :=
  checkOrder.flatMap (fun c => files.flatMap (fun f => applyCheck c f))

/-- The list `all_issues` in `main`: the double loop over the discovered files,
where each check reads its file independently. -/
def allIssues (fs : FileSystem) (readL : String → Except String (List String))
    (readC : String → Except String String) : List String :=
  runChecks ((find_cpp_files fs).map (fun p => ⟨p, readL p, readC p⟩))

/-- The driver `main`: 1 when discovery finds nothing, 0 when no issues, otherwise
the issue count capped at 10. -/
def mainExit (fs : FileSystem) (readL : String → Except String (List String))
    (readC : String → Except String String) : Nat :=
  if (find_cpp_files fs).isEmpty then 1
  else
    let issues := allIssues fs readL readC
    if issues.isEmpty then 0 else min issues.length 10

/-- Modelled from the spec: a closing line accepted exactly when its
stripped text is entirely `} // namespace <name>` or
`}  // namespace <name>` with nothing after the name. -/
def acceptedClosingSpec (s : String) : Bool :=
  (match afterLit nsClose2Lit.data s.data with
    | some (c :: cs) => isWordChar c && cs.all isWordChar
    | _ => false)
  || (match afterLit nsClose1Lit.data s.data with
    | some (c :: cs) => isWordChar c && cs.all isWordChar
    | _ => false)

/-- The full flagging condition of the indentation scan on one line:
non-blank, positive leading-space count not a multiple of 4, and the
alignment-exemption regex finds no punctuation character. -/
def flagIndent (l : String) : Bool :=
  if pyStrip l = "" then false
  else if 0 < leadingSpaces l ∧ leadingSpaces l % 4 ≠ 0 then noPunctLine l
  else false

/-- A single-namespace test file: filler, `namespace foo {` opened on line
`o`, filler, and a bare closing brace on line `c`. -/
def mkNsFile (o c : Nat) : List String :=
  List.replicate (o - 1) "int a;\n" ++ ["namespace foo \x7b\n"]
    ++ List.replicate (c - o - 1) "int b;\n" ++ ["\x7d"]

theorem afterLit_eq_some (lit : List Char) :
    ∀ s t : List Char, afterLit lit s = some t ↔ s = lit ++ t := by
  induction lit with
  | nil => intro s t; simp [afterLit]
  | cons p ps ih =>
    intro s t
    cases s with
    | nil => simp [afterLit]
    | cons c cs =>
      by_cases h : p = c
      · subst h; simp [afterLit, ih]
      · constructor
        · intro hh; simp [afterLit, h] at hh
        · intro hh
          injection hh with h1 _
          exact absurd h1.symm h

theorem litThenWord_iff (lit : List Char) (s : List Char) :
    litThenWord lit s = true ↔
      ∃ c cs, isWordChar c = true ∧ s = lit ++ c :: cs := by
  unfold litThenWord
  cases h : afterLit lit s with
  | none =>
    simp only [Bool.false_eq_true, false_iff]
    rintro ⟨c, cs, _, rfl⟩
    have h2 : afterLit lit (lit ++ c :: cs) = some (c :: cs) :=
      (afterLit_eq_some lit _ _).mpr rfl
    rw [h] at h2
    exact Option.noConfusion h2
  | some t =>
    rw [afterLit_eq_some] at h
    subst h
    cases t with
    | nil =>
      simp only [Bool.false_eq_true, false_iff]
      rintro ⟨c, cs, _, hh⟩
      exact absurd (List.append_cancel_left hh) (by simp)
    | cons c cs =>
      constructor
      · intro hw; exact ⟨c, cs, hw, rfl⟩
      · rintro ⟨d, ds, hd, hh⟩
        have := List.append_cancel_left hh
        cases this
        exact hd

theorem mem_insSorted (a x : String) (l : List String) :
    x ∈ insSorted a l ↔ x = a ∨ x ∈ l := by
  induction l with
  | nil => simp [insSorted]
  | cons b rest ih =>
    unfold insSorted
    split
    · simp
    · simp only [List.mem_cons, ih]
      tauto

theorem mem_sortStrings (x : String) (l : List String) :
    x ∈ sortStrings l ↔ x ∈ l := by
  induction l with
  | nil => simp [sortStrings]
  | cons a rest ih => simp [sortStrings, mem_insSorted, ih]

theorem lexLe_total (as : List Char) :
    ∀ bs, lexLe as bs = true ∨ lexLe bs as = true := by
  induction as with
  | nil => intro bs; left; rfl
  | cons a as ih =>
    intro bs
    cases bs with
    | nil => right; rfl
    | cons b bs =>
      by_cases h1 : a.toNat < b.toNat
      · left; simp [lexLe, h1]
      · by_cases h2 : b.toNat < a.toNat
        · right; simp [lexLe, h2]
        · rcases ih bs with h | h
          · left; simp [lexLe, h1, h2, h]
          · right; simp [lexLe, h1, h2, h]

theorem lexLe_trans (as : List Char) :
    ∀ bs cs, lexLe as bs = true → lexLe bs cs = true → lexLe as cs = true := by
  induction as with
  | nil => intro bs cs _ _; rfl
  | cons a as ih =>
    intro bs cs hab hbc
    cases bs with
    | nil => simp [lexLe] at hab
    | cons b bs =>
      cases cs with
      | nil => simp [lexLe] at hbc
      | cons c cs =>
        rcases Nat.lt_trichotomy a.toNat b.toNat with h1 | h1 | h1
        · rcases Nat.lt_trichotomy b.toNat c.toNat with h2 | h2 | h2
          · simp [lexLe, show a.toNat < c.toNat from by omega]
          · simp [lexLe, show a.toNat < c.toNat from by omega]
          · simp [lexLe, show ¬b.toNat < c.toNat from by omega, h2] at hbc
        · rcases Nat.lt_trichotomy b.toNat c.toNat with h2 | h2 | h2
          · simp [lexLe, show a.toNat < c.toNat from by omega]
          · simp only [lexLe, show ¬a.toNat < b.toNat from by omega,
              show ¬b.toNat < a.toNat from by omega, if_false] at hab
            simp only [lexLe, show ¬b.toNat < c.toNat from by omega,
              show ¬c.toNat < b.toNat from by omega, if_false] at hbc
            simp only [lexLe, show ¬a.toNat < c.toNat from by omega,
              show ¬c.toNat < a.toNat from by omega, if_false]
            exact ih bs cs hab hbc
          · simp [lexLe, show ¬b.toNat < c.toNat from by omega, h2] at hbc
        · simp [lexLe, show ¬a.toNat < b.toNat from by omega, h1] at hab

theorem strLe_total (a b : String) : strLe a b = true ∨ strLe b a = true :=
  lexLe_total a.data b.data

theorem strLe_trans (a b c : String) (h1 : strLe a b = true)
    (h2 : strLe b c = true) : strLe a c = true :=
  lexLe_trans a.data b.data c.data h1 h2

theorem sorted_insSorted (a : String) (l : List String)
    (h : List.Sorted (fun x y => strLe x y = true) l) :
    List.Sorted (fun x y => strLe x y = true) (insSorted a l) := by
  induction l with
  | nil => simp [insSorted]
  | cons b rest ih =>
    rw [List.sorted_cons] at h
    unfold insSorted
    split
    · rw [List.sorted_cons]
      refine ⟨?_, by rw [List.sorted_cons]; exact h⟩
      intro x hx
      rcases List.mem_cons.mp hx with rfl | hx
      · assumption
      · exact strLe_trans a b x (by assumption) (h.1 x hx)
    · rw [List.sorted_cons]
      refine ⟨?_, ih h.2⟩
      intro x hx
      rcases (mem_insSorted a x rest).mp hx with rfl | hx
      · rcases strLe_total x b with hh | hh
        · exact absurd hh (by assumption)
        · exact hh
      · exact h.1 x hx

theorem sorted_sortStrings (l : List String) :
    List.Sorted (fun x y => strLe x y = true) (sortStrings l) := by
  induction l with
  | nil => simp [sortStrings]
  | cons a rest ih => exact sorted_insSorted a _ ih

theorem mem_find_cpp_files (fs : FileSystem) (p : String) :
    p ∈ find_cpp_files fs ↔
      ∃ r, r ∈ cppRoots ∧ fs.rootExists r = true ∧
        ∃ e, e ∈ fs.rglobAll r ∧ e.path = p ∧ pySuffix e.path ∈ cppExtensions := by
  unfold find_cpp_files
  rw [mem_sortStrings]
  simp only [List.mem_flatMap, List.mem_filter, List.mem_filterMap]
  constructor
  · rintro ⟨r, ⟨hr, hex⟩, e, he, hsome⟩
    by_cases hs : pySuffix e.path ∈ cppExtensions
    · rw [if_pos hs] at hsome
      exact ⟨r, hr, hex, e, he, Option.some.inj hsome, hs⟩
    · rw [if_neg hs] at hsome
      exact Option.noConfusion hsome
  · rintro ⟨r, hr, hex, e, he, rfl, hs⟩
    exact ⟨r, ⟨hr, hex⟩, e, he, by rw [if_pos hs]⟩

theorem lineLenLoop_eq (p : String) (maxLen : Nat) :
    ∀ (lines : List String) (n : Nat),
      lineLenLoop p maxLen n lines =
        (List.enumFrom n lines).filterMap (fun pr =>
          if maxLen < (rstripNL pr.2).length then
            some (lineTooLongMsg p pr.1 (rstripNL pr.2).length maxLen)
          else none) := by
  intro lines
  induction lines with
  | nil => intro n; rfl
  | cons l rest ih =>
    intro n
    show lineLenLoop p maxLen n (l :: rest) = _
    unfold lineLenLoop
    rw [show List.enumFrom n (l :: rest) = (n, l) :: List.enumFrom (n + 1) rest from rfl,
      List.filterMap_cons]
    by_cases h : maxLen < (rstripNL l).length
    · simp only [if_pos h, ih]
    · simp only [if_neg h, ih]

theorem lineLenLoop_length (p : String) (maxLen : Nat) :
    ∀ (lines : List String) (n : Nat),
      (lineLenLoop p maxLen n lines).length =
        lines.countP (fun l => decide (maxLen < (rstripNL l).length)) := by
  intro lines
  induction lines with
  | nil => intro n; rfl
  | cons l rest ih =>
    intro n
    unfold lineLenLoop
    rw [List.countP_cons]
    by_cases h : maxLen < (rstripNL l).length
    · simp [h, ih]
    · simp [h, ih]

theorem indentLoop_eq (p : String) :
    ∀ (lines : List String) (n : Nat),
      indentLoop p n lines =
        (match (List.enumFrom n lines).find? (fun pr => flagIndent pr.2) with
          | some pr => [indentMsg p pr.1]
          | none => []) := by
  intro lines
  induction lines with
  | nil => intro n; rfl
  | cons l rest ih =>
    intro n
    rw [show List.enumFrom n (l :: rest) = (n, l) :: List.enumFrom (n + 1) rest from rfl,
      List.find?_cons]
    unfold indentLoop
    by_cases h1 : pyStrip l = ""
    · rw [if_pos h1, show flagIndent l = false by simp [flagIndent, h1]]
      exact ih (n + 1)
    · rw [if_neg h1]
      by_cases h2 : 0 < leadingSpaces l ∧ leadingSpaces l % 4 ≠ 0
      · rw [if_pos h2]
        by_cases h3 : noPunctLine l = true
        · rw [if_pos h3, show flagIndent l = true by simp [flagIndent, h1, h2, h3]]
        · rw [if_neg h3,
            show flagIndent l = false by
              simp [flagIndent, h1, h2, Bool.eq_false_iff.mpr h3]]
          exact ih (n + 1)
      · rw [if_neg h2, show flagIndent l = false by simp [flagIndent, h1, h2]]
        exact ih (n + 1)

theorem nsLoop_skip (p l : String) (h1 : nsOpenName (pyStrip l) = none)
    (h2 : isCloseLine (pyStrip l) = false) :
    ∀ (k : Nat) (st : List (String × Nat)) (n : Nat) (rest : List String),
      nsLoop p st n (List.replicate k l ++ rest) = nsLoop p st (n + k) rest := by
  intro k
  induction k with
  | zero => intro st n rest; rfl
  | succ k ih =>
    intro st n rest
    rw [List.replicate_succ, List.cons_append]
    have step : nsLoop p st n (l :: (List.replicate k l ++ rest))
        = nsLoop p st (n + 1) (List.replicate k l ++ rest) := by
      conv_lhs => unfold nsLoop
      simp only [h1, h2, Bool.false_eq_true, if_false]
    rw [step, ih st (n + 1) rest, Nat.add_assoc, Nat.add_comm 1 k]

/-- C6: for a readable file, the line-length check emits exactly one issue
per line whose terminator-stripped length exceeds 100, referencing the
1-indexed line number and carrying both the limit and the actual stripped
length in the message, and no issue for any line at or under the limit. -/
theorem lineLength_issues_exact (p : String) (lines : List String) :
    check_line_length p (.ok lines) 100 =
      (List.enumFrom 1 lines).filterMap (fun pr =>
        if 100 < (rstripNL pr.2).length then
          some (lineTooLongMsg p pr.1 (rstripNL pr.2).length 100)
        else none) ∧
    (check_line_length p (.ok lines) 100).length =
      lines.countP (fun l => decide (100 < (rstripNL l).length)) :=
  ⟨lineLenLoop_eq p 100 lines 1, lineLenLoop_length p 100 lines 1⟩

/-- C3 counterexample: line 1 has three leading spaces (positive, not a
multiple of 4) and is non-blank, yet the check does not flag it and keeps
scanning: the single reported issue references line 2. -/
theorem indentation_skips_punct_line_cx :
    check_indentation "f" (.ok ["   a();\n", "  bb"])
      = ["f:2: Inconsistent indentation (not multiple of 4)"] ∧
    pyStrip "   a();\n" ≠ "" ∧
    leadingSpaces "   a();\n" = 3 := by
  refine ⟨by decide, by decide, by decide⟩

/-- C3 amended: the indentation check reports the first non-blank line
whose leading-space count is positive and not a multiple of 4 AND whose
content holds no character other than word characters and whitespace
(`flagIndent`); lines failing the last condition are skipped and scanning
continues, and the scan stops at the first flagged line. -/
theorem indentation_first_flagged_line (p : String) (lines : List String) :
    check_indentation p (.ok lines) =
      (match (List.enumFrom 1 lines).find? (fun pr => flagIndent pr.2) with
        | some pr => [indentMsg p pr.1]
        | none => []) :=
  indentLoop_eq p lines 1

/-- C10: the indentation check counts only leading space characters, so a
line whose first character is anything but a space (a tab, in particular)
has leading-space count 0 and is never the flagged line of the scan. -/
theorem indentation_ignores_tab_indent (p : String) (lines : List String) :
    check_indentation p (.ok lines) =
      (match (List.enumFrom 1 lines).find? (fun pr => flagIndent pr.2) with
        | some pr => [indentMsg p pr.1]
        | none => []) ∧
    ∀ (l : String) (ch : Char) (cs : List Char),
      l.data = ch :: cs → ch ≠ ' ' →
        leadingSpaces l = 0 ∧ flagIndent l = false := by
  refine ⟨indentLoop_eq p lines 1, ?_⟩
  intro l ch cs hdata hch
  have hdrop : l.data.dropWhile (fun c => c = ' ') = l.data := by
    rw [hdata, List.dropWhile_cons]
    simp [hch]
  have hlen : leadingSpaces l = 0 := by
    unfold leadingSpaces lstripSpaces
    rw [hdrop]
    exact Nat.sub_self _
  refine ⟨hlen, ?_⟩
  unfold flagIndent
  rw [hlen]
  simp

/-- C10 witness: a tab-indented line is not flagged. -/
theorem indentation_ignores_tab_indent_witness :
    check_indentation "f" (.ok ["\tx;"]) = [] ∧ flagIndent "\tx;" = false := by
  have h := indentation_ignores_tab_indent "f" ["\tx;"]
  refine ⟨?_, (h.2 "\tx;" '\t' "x;".data (by decide) (by decide)).2⟩
  rw [h.1]
  decide

/-- C7: the include-guard check yields nothing for non-headers; a header
with a pragma-once directive passes regardless of the rest; a header
without it gets exactly one issue exactly when one of the three guard
patterns (`#ifndef` + name, `#define` + name, `#endif`) is absent, names
never being compared. -/
theorem includeGuards_cases (p content : String) :
    (isHeaderPath p = false → ∀ r, check_include_guards p r = []) ∧
    (isHeaderPath p = true → occursIn "#pragma once".data content.data = true →
      check_include_guards p (.ok content) = []) ∧
    (isHeaderPath p = true → occursIn "#pragma once".data content.data = false →
      (check_include_guards p (.ok content) = [guardMsg p] ↔
        ¬(searchLitWsWord "#ifndef".data content.data = true
          ∧ searchLitWsWord "#define".data content.data = true
          ∧ occursIn "#endif".data content.data = true)) ∧
      (check_include_guards p (.ok content) = [] ↔
        (searchLitWsWord "#ifndef".data content.data = true
          ∧ searchLitWsWord "#define".data content.data = true
          ∧ occursIn "#endif".data content.data = true))) := by
  unfold check_include_guards
  refine ⟨?_, ?_, ?_⟩
  · intro h r
    rw [h]
    simp
  · intro h hp
    rw [h]
    simp [hp]
  · intro h hp
    rw [h]
    simp only [if_true, hp, Bool.false_eq_true, if_false]
    by_cases hA : (searchLitWsWord "#ifndef".data content.data
        && searchLitWsWord "#define".data content.data
        && occursIn "#endif".data content.data) = true
    · rw [if_pos hA]
      rw [Bool.and_eq_true, Bool.and_eq_true] at hA
      constructor
      · constructor
        · intro hh
          exact absurd hh (by simp)
        · intro hh
          exact absurd ⟨hA.1.1, hA.1.2, hA.2⟩ hh
      · simp [hA.1.1, hA.1.2, hA.2]
    · rw [if_neg hA]
      rw [Bool.and_eq_true, Bool.and_eq_true] at hA
      constructor
      · constructor
        · intro _ hh
          exact hA ⟨⟨hh.1, hh.2.1⟩, hh.2.2⟩
        · intro _
          rfl
      · constructor
        · intro hh
          exact absurd hh (by simp)
        · intro hh
          exact absurd ⟨⟨hh.1, hh.2.1⟩, hh.2.2⟩ hA

/-- C7 witness: a non-header passes with no guards; a pragma-once header
passes; a complete traditional guard passes; a guardless header gets
exactly one issue. -/
theorem includeGuards_cases_witness :
    check_include_guards "a.cpp" (.ok "") = [] ∧
    check_include_guards "b.h" (.ok "#pragma once\nint x;\n") = [] ∧
    check_include_guards "c.h"
      (.ok "#ifndef C_H\n#define C_H\nint x;\n#endif\n") = [] ∧
    check_include_guards "d.h" (.ok "int x;\n") = [guardMsg "d.h"] := by
  refine ⟨(includeGuards_cases "a.cpp" "").1 (by decide) _,
    (includeGuards_cases "b.h" "#pragma once\nint x;\n").2.1 (by decide) (by decide),
    ((includeGuards_cases "c.h"
      "#ifndef C_H\n#define C_H\nint x;\n#endif\n").2.2 (by decide) (by decide)).2.mpr
      (by refine ⟨by decide, by decide, by decide⟩),
    ((includeGuards_cases "d.h" "int x;\n").2.2 (by decide) (by decide)).1.mpr
      (by decide)⟩

/-- C2 counterexample: a namespace opened on line 11 and closed with a
bare brace on line 12 spans a single line (at most 10 between open and
close), yet the check emits one issue at the closing line. -/
theorem nsComments_short_span_flagged_cx :
    check_namespace_comments "f" (.ok (mkNsFile 11 12))
      = ["f:12: Missing namespace closing comment"] ∧ 12 - 11 ≤ 10 := by
  refine ⟨by decide, by decide⟩

/-- C2 amended: whether a bare closing brace is flagged depends only on
the absolute 1-indexed line number of the closing line, not on the span of the
namespace: for a namespace opened on line `o` and closed by a bare brace
on line `c`, the check emits exactly one issue at line `c` when `c > 10`
and nothing otherwise. -/
theorem nsComments_flag_iff_line_gt10 (p : String) (o c : Nat)
    (h1 : 1 ≤ o) (h2 : o < c) :
    check_namespace_comments p (.ok (mkNsFile o c)) =
      if 10 < c then [nsMsg p c] else [] := by
  show nsLoop p [] 1 (mkNsFile o c) = _
  unfold mkNsFile
  rw [List.append_assoc, List.append_assoc, List.singleton_append]
  rw [nsLoop_skip p "int a;\n" (by decide) (by decide) (o - 1) [] 1 _]
  rw [show 1 + (o - 1) = o from by omega]
  have stepOpen : nsLoop p [] o
      ("namespace foo \x7b\n" :: (List.replicate (c - o - 1) "int b;\n" ++ ["\x7d"]))
      = nsLoop p [("foo", o)] (o + 1)
        (List.replicate (c - o - 1) "int b;\n" ++ ["\x7d"]) := by
    conv_lhs => unfold nsLoop
    simp only [show nsOpenName (pyStrip "namespace foo \x7b\n") = some "foo" from by decide,
      show isCloseLine (pyStrip "namespace foo \x7b\n") = false from by decide,
      Bool.false_eq_true, if_false]
  rw [stepOpen]
  rw [nsLoop_skip p "int b;\n" (by decide) (by decide) (c - o - 1) [("foo", o)] (o + 1) _]
  rw [show o + 1 + (c - o - 1) = c from by omega]
  conv_lhs => unfold nsLoop
  simp only [show nsOpenName (pyStrip "\x7d") = none from by decide,
    show isCloseLine (pyStrip "\x7d") = true from by decide,
    show acceptedClosing (pyStrip "\x7d") = false from by decide,
    Bool.false_eq_true, if_false, if_true]
  by_cases h : 10 < c
  · rw [if_pos h, if_pos h]
    rfl
  · rw [if_neg h, if_neg h]
    rfl

/-- C2 witness: a namespace closing on line 15 is flagged; one closing on
line 8 is exempt, both with bare braces. -/
theorem nsComments_flag_iff_line_gt10_witness :
    check_namespace_comments "g" (.ok (mkNsFile 2 15)) = [nsMsg "g" 15] ∧
    check_namespace_comments "g" (.ok (mkNsFile 2 8)) = [] := by
  have hA := nsComments_flag_iff_line_gt10 "g" 2 15 (by decide) (by decide)
  have hB := nsComments_flag_iff_line_gt10 "g" 2 8 (by decide) (by decide)
  exact ⟨hA.trans (by decide), hB.trans (by decide)⟩

/-- C8 counterexample: the closing line `} // namespace foo bar` is not
exactly of either required form (it has extra text after the name, as the
spec-modelled matcher confirms), yet the check accepts it: a namespace
closing past line 10 with that line yields no issue. -/
theorem nsClosing_trailing_text_accepted_cx :
    acceptedClosing "\x7d // namespace foo bar" = true ∧
    acceptedClosingSpec "\x7d // namespace foo bar" = false ∧
    check_namespace_comments "f"
      (.ok (List.replicate 10 "int a;\n"
        ++ ["namespace foo \x7b\n", "\x7d // namespace foo bar"])) = [] := by
  refine ⟨by decide, by decide, by decide⟩

/-- C8 amended: a closing-brace line is accepted exactly when its stripped
text BEGINS with `}  // namespace ` or `} // namespace ` followed by at
least one word character; arbitrary text may follow the name, and no other
spacing is accepted. -/
theorem nsClosing_accepted_iff (s : String) :
    acceptedClosing s = true ↔
      ∃ c cs, isWordChar c = true ∧
        (s.data = nsClose2Lit.data ++ c :: cs
          ∨ s.data = nsClose1Lit.data ++ c :: cs) := by
  unfold acceptedClosing
  rw [Bool.or_eq_true, litThenWord_iff, litThenWord_iff]
  constructor
  · rintro (⟨c, cs, hw, hh⟩ | ⟨c, cs, hw, hh⟩)
    · exact ⟨c, cs, hw, Or.inl hh⟩
    · exact ⟨c, cs, hw, Or.inr hh⟩
  · rintro ⟨c, cs, hw, hh | hh⟩
    · exact Or.inl ⟨c, cs, hw, hh⟩
    · exact Or.inr ⟨c, cs, hw, hh⟩

/-- C8 witness: the one-space form with a plain name is accepted. -/
theorem nsClosing_accepted_iff_witness :
    acceptedClosing "\x7d // namespace foo" = true :=
  (nsClosing_accepted_iff "\x7d // namespace foo").mpr
    ⟨'f', "oo".data, by decide, Or.inr (by decide)⟩

/-- A file-system under which `src` exists and holds one regular file of
each of the five allow-listed extensions. -/
def exFS5 : FileSystem :=
  ⟨fun r => r == "src",
    fun r =>
      if r == "src" then
        [⟨"src/a.cpp", true⟩, ⟨"src/b.hpp", true⟩, ⟨"src/c.h", true⟩,
          ⟨"src/d.cxx", true⟩, ⟨"src/e.cc", true⟩]
      else []⟩

/-- C4 counterexample: the allow-list has five entries, and a single run
discovers files of five pairwise distinct suffixes, so no list of four
extensions covers the discovered set. -/
theorem discovery_five_extensions_cx :
    find_cpp_files exFS5
      = ["src/a.cpp", "src/b.hpp", "src/c.h", "src/d.cxx", "src/e.cc"] ∧
    ((find_cpp_files exFS5).map pySuffix).Nodup ∧
    ((find_cpp_files exFS5).map pySuffix).length = 5 ∧
    cppExtensions.length = 5 := by
  refine ⟨by decide, by decide, by decide, by decide⟩

/-- C4 amended: the suffix of every discovered path lies in the fixed allow-list
of exactly five C++ extensions. -/
theorem discovery_suffix_allowlist (fs : FileSystem) (p : String)
    (h : p ∈ find_cpp_files fs) :
    pySuffix p ∈ cppExtensions ∧ cppExtensions.length = 5 := by
  obtain ⟨r, -, -, e, -, rfl, hs⟩ := (mem_find_cpp_files fs p).mp h
  exact ⟨hs, rfl⟩

/-- C4 witness: a `.cc` file discovered under `src` has its suffix in the
five-entry allow-list. -/
theorem discovery_suffix_allowlist_witness :
    pySuffix "src/e.cc" ∈ cppExtensions ∧ cppExtensions.length = 5 :=
  discovery_suffix_allowlist exFS5 "src/e.cc" (by decide)

/-- A file-system whose only matching entry under `src` is a DIRECTORY
named `src/sub.cpp`. -/
def exFSdir : FileSystem :=
  ⟨fun r => r == "src",
    fun r => if r == "src" then [⟨"src/sub.cpp", false⟩] else []⟩

/-- C5 counterexample: discovery returns the directory `src/sub.cpp`
although no entry beneath `src` is a regular file, so discovery does not
enumerate only regular files. -/
theorem discovery_includes_directory_cx :
    find_cpp_files exFSdir = ["src/sub.cpp"] ∧
    (exFSdir.rglobAll "src").all (fun e => !e.isFile) = true := by
  refine ⟨by decide, by decide⟩

/-- C5 amended: discovery returns a path-sorted sequence holding exactly
the paths of entries of ANY kind (directories included) beneath the
existing roots whose suffix is allow-listed; roots that do not exist
contribute nothing and raise no error. -/
theorem discovery_sorted_membership (fs : FileSystem) :
    List.Sorted (fun a b => strLe a b = true) (find_cpp_files fs) ∧
    ∀ p, p ∈ find_cpp_files fs ↔
      ∃ r, r ∈ cppRoots ∧ fs.rootExists r = true ∧
        ∃ e, e ∈ fs.rglobAll r ∧ e.path = p ∧ pySuffix e.path ∈ cppExtensions :=
  ⟨sorted_sortStrings _, fun p => mem_find_cpp_files fs p⟩

/-- C5 witness: the membership characterization at a concrete entry. -/
theorem discovery_sorted_membership_witness :
    "src/sub.cpp" ∈ find_cpp_files exFSdir :=
  ((discovery_sorted_membership exFSdir).2 "src/sub.cpp").mpr
    ⟨"src", by decide, by decide, ⟨"src/sub.cpp", false⟩, by decide, rfl, by decide⟩

/-- C9: for an unreadable header file, every one of the six checks yields
exactly the one read-failure issue, and the run is not aborted: the double
loop still produces the issues of every other file, the unreadable file
contributing exactly its one failure issue per check. -/
theorem readError_isolated (p e : String) (others : List FileData)
    (hp : pyEndsWith p ".h" = true) :
    (∀ c, c ∈ checkOrder →
      applyCheck c ⟨p, .error e, .error e⟩ = [readErrMsg p e]) ∧
    runChecks (⟨p, .error e, .error e⟩ :: others) =
      checkOrder.flatMap (fun c =>
        readErrMsg p e :: others.flatMap (fun f => applyCheck c f)) := by
  have hh : isHeaderPath p = true := by
    unfold isHeaderPath
    rw [hp, Bool.or_true]
  constructor
  · intro c hc
    simp only [checkOrder, List.mem_cons, List.not_mem_nil, or_false] at hc
    rcases hc with rfl | rfl | rfl | rfl | rfl | rfl
    · rfl
    · rfl
    · rfl
    · show check_include_guards p (.error e) = _
      unfold check_include_guards
      rw [hh]
      simp
    · rfl
    · rfl
  · unfold runChecks
    simp only [checkOrder, List.flatMap_cons, List.flatMap_nil, List.append_nil]
    have hg : check_include_guards p (.error e) = [readErrMsg p e] := by
      unfold check_include_guards
      rw [hh]
      simp
    simp only [applyCheck, check_line_length, check_trailing_whitespace,
      check_tabs, check_namespace_comments, check_indentation, hg,
      List.singleton_append]

/-- C9 witness: a lone unreadable header produces exactly six issues, the
read-failure message once per check. -/
theorem readError_isolated_witness :
    runChecks [⟨"a.h", .error "boom", .error "boom"⟩] =
      List.replicate 6 (readErrMsg "a.h" "boom") := by
  have h := readError_isolated "a.h" "boom" [] (by decide)
  rw [h.2]
  decide

/-- A file-system with a single discovered file `src/a.cpp`, read as a
single 101-character line with no tabs, trailing whitespace, namespaces or
indentation. -/
def exFS1 : FileSystem :=
  ⟨fun r => r == "src", fun r => if r == "src" then [⟨"src/a.cpp", true⟩] else []⟩

/-- Line reader for `exFS1`: one line of 101 `a` characters. -/
def exRead1L : String → Except String (List String) :=
  fun _ => .ok [String.mk (List.replicate 101 'a')]

/-- Content reader for `exFS1`: the same 101 `a` characters. -/
def exRead1C : String → Except String String :=
  fun _ => .ok (String.mk (List.replicate 101 'a'))

/-- C1 counterexample: a run that discovers one file and collects exactly
one issue exits with code 1 — outside the claimed 2–10 range for
issue-driven codes, and indistinguishable from the no-files-discovered
exit code. -/
theorem mainExit_one_issue_collision_cx :
    find_cpp_files exFS1 = ["src/a.cpp"] ∧
    (allIssues exFS1 exRead1L exRead1C).length = 1 ∧
    mainExit exFS1 exRead1L exRead1C = 1 := by
  refine ⟨by decide, by decide, by decide⟩

/-- C1 amended: the exit code is 1 when no file is discovered, 0 when
files were discovered and no issue was found, and `min(total, 10)`
otherwise — a value in 1–10, so exit code 1 also arises from a run with
exactly one issue and does not uniquely identify the no-files case. -/
theorem mainExit_code_spec (fs : FileSystem)
    (rl : String → Except String (List String))
    (rc : String → Except String String) :
    (find_cpp_files fs = [] → mainExit fs rl rc = 1) ∧
    (find_cpp_files fs ≠ [] → allIssues fs rl rc = [] →
      mainExit fs rl rc = 0) ∧
    (find_cpp_files fs ≠ [] → allIssues fs rl rc ≠ [] →
      mainExit fs rl rc = min (allIssues fs rl rc).length 10 ∧
      1 ≤ mainExit fs rl rc ∧ mainExit fs rl rc ≤ 10) := by
  refine ⟨?_, ?_, ?_⟩
  · intro h
    unfold mainExit
    rw [h]
    rfl
  · intro h1 h2
    unfold mainExit
    simp [List.isEmpty_iff, h1, h2]
  · intro h1 h2
    have hpos : 0 < (allIssues fs rl rc).length := List.length_pos.mpr h2
    have hv : mainExit fs rl rc = min (allIssues fs rl rc).length 10 := by
      unfold mainExit
      simp [List.isEmpty_iff, h1, h2]
    rw [hv]
    exact ⟨rfl, Nat.le_min.mpr ⟨hpos, by omega⟩, Nat.min_le_right _ _⟩

/-- C1 witness: the exit-code formula evaluated on a run with one
discovered file and one issue. -/
theorem mainExit_code_spec_witness :
    mainExit exFS1 exRead1L exRead1C
        = min (allIssues exFS1 exRead1L exRead1C).length 10 ∧
    1 ≤ mainExit exFS1 exRead1L exRead1C ∧
    mainExit exFS1 exRead1L exRead1C ≤ 10 :=
  (mainExit_code_spec exFS1 exRead1L exRead1C).2.2 (by decide) (by decide)

-- scratch probes
example : List.enumFrom 2 ["x", "y"] = [(2, "x"), (3, "y")] := rfl
example : pyStrip " ab \n" = "ab" := by decide
example : occursIn "bc".data "abcd".data = true := by decide
example : sortStrings ["b", "a", "ab"] = ["a", "ab", "b"] := by decide
example : pySuffix "src/a.cpp" = ".cpp" := by decide
example : pySuffix "src/.bashrc" = "" := by decide
example : pySuffix "src/foo." = "" := by decide
example : pySuffix "src/foo" = "" := by decide
example : searchLitWsWord "#ifndef".data "x\n#ifndef  FOO_H\n".data = true := by decide
example : searchLitWsWord "#ifndef".data "x\n#ifndef\n\n".data = false := by decide
example : check_include_guards "a.h" (.ok "#pragma once") = [] := by decide
example : check_include_guards "a.cpp" (.ok "") = [] := by decide
example : check_line_length "f" (.ok ["ab"]) 1 = ["f:1: Line too long (2 > 1)"] := by decide
example : nsOpenName "namespace foo \x7b" = some "foo" := by decide
example : nsOpenName "namespaces x" = none := by decide
example : isCloseLine "\x7d" = true := by decide
example : isCloseLine "\x7d // namespace a" = true := by decide
example : acceptedClosing "\x7d // namespace foo bar" = true := by decide
example : acceptedClosingSpec "\x7d // namespace foo bar" = false := by decide
example : acceptedClosing "\x7d   // namespace foo" = false := by decide
example : acceptedClosing "\x7d" = false := by decide
example : check_namespace_comments "f"
    (.ok (List.replicate 10 "int a;\n" ++ ["namespace foo \x7b\n", "\x7d"]))
    = ["f:12: Missing namespace closing comment"] := by decide
example : check_indentation "f" (.ok ["   a();\n", "  bb"])
    = ["f:2: Inconsistent indentation (not multiple of 4)"] := by decide
example : check_indentation "f" (.ok ["\tab"]) = [] := by decide
